import Mathlib

/-!
Verification development for the insider-signal-trader repository.

The definitions below are a shallow embedding of the TypeScript source:

* `src/tools/scoring.ts` — the multi-factor scoring engine (`scoreRole`,
  `scoreValue`, `scoreRecency`, `detectClusters`, `buildSignal`,
  `scoreSignals`).
* `src/tools/db.ts` — the recommendation store (`updateRecommendationStatus`,
  `getRecommendation`) over an explicit list of rows.
* `src/routes/approval.ts` — the approval route (`validatePending` +
  `handleApprove`), modelled as a pure function from an oracle of external
  effects (prices, portfolio, order outcome) to an outcome, the new store
  and a chronological event trace.
* `src/agents/formScanner.ts` — `DecisionAgent.expireRecommendation` and the
  guard loop of `DecisionAgent.decide` (the run-scoped remaining-buying-power
  counter).

Conventions of the embedding:
* JS numbers (IEEE doubles in the source) carrying dollar amounts, prices
  and share counts are modelled as `Int`: every operation the claims exercise
  (comparison, addition, subtraction, and one floor division) is exact on
  integers of these magnitudes in both models, and no claim exercises float
  rounding.
* Calendar dates (`"YYYY-MM-DD"` strings in the source) are modelled as `Int`
  day numbers: `Date.parse` of a date-only string is exactly
  `day * 86_400_000` ms, so `calendarDayDiff` and string equality of dates
  translate to integer difference and integer equality.
* Timestamps in milliseconds (`Date.now()`, `Date.parse(createdAt)`) are
  modelled as `Int`.
* The ambient UTC clock read by `utcDateString` / `Date.now()` is passed as
  an explicit parameter (`today`, `now`).
-/

namespace InsiderTrader

/-! ## Regular-expression model for the role patterns

`scoreRole` in `src/tools/scoring.ts` tests the role text against regexes of
the shape `\b(W1|W2\s+W3|...)\b` with the `i` flag.  We model exactly that
fragment: each alternative is a list of literal words, adjacent words are
separated by `\s+`, the whole alternative is bracketed by word boundaries,
matching is case-insensitive and the regex may match anywhere in the string.
-/

/-- JS regex word character (`\w` = `[A-Za-z0-9_]`, ASCII). -/
def isWordChar (c : Char) : Bool :=
  (c ≥ 'a' && c ≤ 'z') || (c ≥ 'A' && c ≤ 'Z') || (c ≥ '0' && c ≤ '9') || c = '_'

/-- JS regex whitespace (`\s`), restricted to the ASCII characters that can
occur in role strings. -/
def isSpaceChar (c : Char) : Bool :=
  c = ' ' || c = '\t' || c = '\n' || c = '\r'

/-- Case-insensitive literal match of a pattern word at the head of the
subject; returns the remaining subject on success. -/
def matchChars : List Char → List Char → Option (List Char)
  | [], s => some s
  | _ :: _, [] => none
  | c :: cs, d :: ds => if d.toUpper = c.toUpper then matchChars cs ds else none

/-- Drop leading whitespace. -/
def skipSpaces : List Char → List Char
  | [] => []
  | c :: cs => if isSpaceChar c then skipSpaces cs else c :: cs

/-- Match a sequence of pattern words separated by `\s+` (at least one
whitespace character between words, as in `CHIEF\s+EXECUTIVE`). -/
def matchWords : List (List Char) → List Char → Option (List Char)
  | [], s => some s
  | [w], s => matchChars w s
  | w :: w2 :: ws, s =>
    match matchChars w s with
    | none => none
    | some [] => none
    | some (c :: cs) =>
      if isSpaceChar c then matchWords (w2 :: ws) (skipSpaces cs) else none

/-- The closing `\b`: the position after the match is the end of the string
or a non-word character. -/
def endBoundaryOk : List Char → Bool
  | [] => true
  | c :: _ => !isWordChar c

/-- Does one alternative of the pattern match at the current position
(including the closing word boundary)? -/
def altMatchesAt (alt : List (List Char)) (s : List Char) : Bool :=
  match matchWords alt s with
  | some r => endBoundaryOk r
  | none => false

/-- Scan the subject for a match of one alternative; `prev` records whether
the previous character is a word character (the opening `\b` requires it is
not). -/
def testAltAux (alt : List (List Char)) : Bool → List Char → Bool
  | prev, [] => !prev && altMatchesAt alt []
  | prev, c :: cs =>
    (!prev && altMatchesAt alt (c :: cs)) || testAltAux alt (isWordChar c) cs

/-- `re.test(s)` for a pattern `\b(alt1|alt2|...)\b` with flag `i`. -/
def regexTest (alts : List (List String)) (s : String) : Bool :=
  alts.any (fun alt => testAltAux (alt.map String.toList) false s.toList)

/-! ## Scoring engine (`src/tools/scoring.ts`) -/

/-- The alternatives of the 40-point executive regex
`/\b(CEO|CHIEF\s+EXECUTIVE|CFO|CHIEF\s+FINANCIAL|PRESIDENT|COO|CHIEF\s+OPERATING|CTO|CHIEF\s+TECHNOLOGY|CSO|CRO|CHAIRMAN)\b/i`. -/
def execAlts : List (List String) :=
  [["CEO"], ["CHIEF", "EXECUTIVE"], ["CFO"], ["CHIEF", "FINANCIAL"],
   ["PRESIDENT"], ["COO"], ["CHIEF", "OPERATING"], ["CTO"],
   ["CHIEF", "TECHNOLOGY"], ["CSO"], ["CRO"], ["CHAIRMAN"]]

/-- The 25-point director regex `/\bdirector\b/i`. -/
def directorAlts : List (List String) := [["DIRECTOR"]]

/-- The 15-point officer regex
`/\b(VP|VICE\s+PRES|SVP|EVP|OFFICER|TREASURER|SECRETARY|CONTROLLER|COMPTROLLER)\b/i`. -/
def officerAlts : List (List String) :=
  [["VP"], ["VICE", "PRES"], ["SVP"], ["EVP"], ["OFFICER"], ["TREASURER"],
   ["SECRETARY"], ["CONTROLLER"], ["COMPTROLLER"]]

/-- `ROLE_PATTERNS`: patterns in priority order with their points. -/
def ROLE_PATTERNS : List (List (List String) × Nat) :=
  [(execAlts, 40), (directorAlts, 25), (officerAlts, 15)]

/-- `scoreRole`: first matching pattern wins, 5 points when nothing
matches. -/
def scoreRole (role : String) : Nat :=
  match ROLE_PATTERNS.find? (fun p => regexTest p.1 role) with
  | some p => p.2
  | none => 5

/-- `scoreValue`: >$1M → 20, >$100K → 10, >$10K → 5, else 0. -/
def scoreValue (transactionValue : Int) : Nat :=
  if transactionValue > 1000000 then 20
  else if transactionValue > 100000 then 10
  else if transactionValue > 10000 then 5
  else 0

/-- `scoreRecency`: +20 if the transaction date is today (UTC), +10 if it is
yesterday, else 0.  `today` is the day number of `utcDateString(0)`. -/
def scoreRecency (today transactionDate : Int) : Nat :=
  if transactionDate = today then 20
  else if transactionDate = today - 1 then 10
  else 0

/-- One normalized transaction record (`Filing` in `src/types.ts`). -/
structure Filing where
  ticker : String
  insiderName : String
  insiderRole : String
  transactionDate : Int
  transactionType : String
  transactionValue : Int
  sharesTraded : Int
  pricePerShare : Int
deriving DecidableEq, Repr

/-- `calendarDayDiff`: absolute difference in calendar days
(`|Date.parse a - Date.parse b| / 864e5`). -/
def calendarDayDiff (a b : Int) : Nat := (a - b).natAbs

/-- `filingKey`: the `ticker\x00insiderName\x00transactionDate` cluster key,
modelled as the corresponding tuple (the `\x00`-joined string is injective in
its three fields). -/
def filingKey (f : Filing) : String × String × Int :=
  (f.ticker, f.insiderName, f.transactionDate)

/-- The condition under which the nested pair loop of `detectClusters` marks
a pair: same ticker (the source groups by ticker before pairing), different
insider, transaction dates within 5 calendar days. -/
def clusterPair (a b : Filing) : Bool :=
  a.ticker = b.ticker && a.insiderName ≠ b.insiderName &&
    calendarDayDiff a.transactionDate b.transactionDate ≤ 5

/-- The keys contributed by pairing `a` against each later element of the
list (inner loop `j = i+1 …`). -/
def pairKeys (a : Filing) (rest : List Filing) : List (String × String × Int) :=
  rest.foldr
    (fun b acc => if clusterPair a b then filingKey a :: filingKey b :: acc else acc)
    []

/-- `detectClusters`: the set of filing keys qualifying for the cluster
bonus, as the list of keys added over all index pairs `i < j`.  The source
first groups the batch by ticker and pairs within each group; since
`clusterPair` requires equal tickers, pairing across the whole batch yields
exactly the same key set. -/
def detectClusters : List Filing → List (String × String × Int)
  | [] => []
  | a :: rest => pairKeys a rest ++ detectClusters rest

/-- The four-factor breakdown stored on a scored signal. -/
structure ScoreBreakdown where
  roleFactor : Nat
  valueFactor : Nat
  clusterBonus : Nat
  recencyFactor : Nat
deriving DecidableEq, Repr

/-- A scored signal (`ScoredSignal` in `src/types.ts`); `capped` records
whether the raw total exceeded 100 (surfaced in `breakdownSummary` in the
source). -/
structure ScoredSignal where
  filing : Filing
  score : Nat
  scoreBreakdown : ScoreBreakdown
  capped : Bool
deriving DecidableEq, Repr

/-- `buildSignal`: sum the four factors and cap the total at 100. -/
def buildSignal (today : Int) (filing : Filing) (inCluster : Bool) : ScoredSignal :=
  let roleFactor := scoreRole filing.insiderRole
  let valueFactor := scoreValue filing.transactionValue
  let clusterBonus := if inCluster then 20 else 0
  let recencyFactor := scoreRecency today filing.transactionDate
  let raw := roleFactor + valueFactor + clusterBonus + recencyFactor
  { filing := filing
    score := min raw 100
    scoreBreakdown :=
      { roleFactor := roleFactor, valueFactor := valueFactor,
        clusterBonus := clusterBonus, recencyFactor := recencyFactor }
    capped := decide (raw > 100) }

/-- Stable insertion into a list sorted non-increasing by score: the new
element goes before the first strictly smaller score, after equal scores. -/
def insertDesc (s : ScoredSignal) : List ScoredSignal → List ScoredSignal
  | [] => [s]
  | t :: ts => if t.score ≤ s.score then s :: t :: ts else t :: insertDesc s ts

/-- Stable sort, non-increasing by score.  This models
`.sort((a, b) => b.score - a.score)`: the ECMAScript `sort` is stable and
with this comparator orders by score descending, keeping ties in input
order, which is exactly what stable insertion on `insertDesc` produces. -/
def sortDesc : List ScoredSignal → List ScoredSignal
  | [] => []
  | s :: rest => insertDesc s (sortDesc rest)

/-- `scoreSignals`: gate to open-market purchases, detect clusters, build
signals, sort descending by score (stable, as the JS engine's `sort`), keep
the best `limit` (the source default for `limit` is 10). -/
def scoreSignals (today : Int) (filings : List Filing) (limit : Nat) : List ScoredSignal :=
  let purchases := filings.filter (fun f => f.transactionType = "P")
  if purchases.isEmpty then []
  else
    (sortDesc (purchases.map
      (fun f => buildSignal today f (decide (filingKey f ∈ detectClusters purchases))))).take
      limit

/-! ## Recommendation store (`src/tools/db.ts`)

The `recommendations` table is modelled as a list of rows; D1 statement
success is modelled as always succeeding (the `assertSuccess` branch fires
only on backend faults outside this model), so the only error path of
`updateRecommendationStatus` is `meta.changes === 0`. -/

/-- One row of the `recommendations` table.  `createdAt` is the parsed
millisecond timestamp of the `created_at` column (`none` models a NULL /
missing value, which the source treats as falsy). -/
structure RecRow where
  id : String
  ticker : String
  action : String
  reasoning : String
  signalId : Int
  status : String
  notional : Int
  stopPrice : Option Int
  takeProfitPrice : Option Int
  createdAt : Option Int
  resolvedAt : Option String
deriving DecidableEq, Repr

/-- `getRecommendation`: `SELECT * FROM recommendations WHERE id = ?`,
first row or null. -/
def getRecommendation (db : List RecRow) (id : String) : Option RecRow :=
  db.find? (fun r => decide (r.id = id))

/-- `updateRecommendationStatus`:
`UPDATE recommendations SET status = ?, resolved_at = ? WHERE id = ?` —
note the `WHERE` clause tests only the id, not the current status — then
throws iff `meta.changes === 0` (no row with that id). -/
def updateRecommendationStatus (db : List RecRow) (id status resolvedAt : String) :
    Except String (List RecRow) :=
  let updated := db.map
    (fun r => if r.id = id then { r with status := status, resolvedAt := some resolvedAt } else r)
  let changes := (db.filter (fun r => decide (r.id = id))).length
  if changes = 0 then Except.error "no row found" else Except.ok updated

/-- `DecisionAgent.expireRecommendation` (`src/agents/formScanner.ts`): the
scheduled expiry callback.  It calls `updateRecommendationStatus(…,
"EXPIRED", now)` and swallows any error (treating it as "already
resolved"). -/
def expireRecommendation (db : List RecRow) (id nowIso : String) : List RecRow :=
  match updateRecommendationStatus db id "EXPIRED" nowIso with
  | Except.ok db2 => db2
  | Except.error _ => db

/-! ## Approval route (`src/routes/approval.ts`)

`handleApprove` is modelled as a pure function of the store plus an oracle
(`ApprovalCtx`) for every external effect the handler awaits: the clock, the
price snapshot, the live portfolio and the brokerage order call.  Alongside
the outcome and the new store it returns the chronological list of
side-effecting calls it made (order submissions, `logTrade`, status
writes). -/

/-- Which order-placing operation the handler invoked. -/
inductive OrderKind
  | buyBracket
  | buyQty
  | sell
deriving DecidableEq, Repr

/-- The fields of an Alpaca order response used by the handler. -/
structure OrderRes where
  id : String
  status : String
deriving DecidableEq, Repr

/-- An Alpaca position (`symbol`, `qty`, `market_value` parsed to numbers). -/
structure AlpacaPos where
  symbol : String
  qty : Int
  marketValue : Int
deriving DecidableEq, Repr

/-- A side-effecting call made by the approval handler, in program order. -/
inductive Ev
  | orderSubmit (kind : OrderKind)
  | logTradeEv
  | dbUpdate (status : String)
deriving DecidableEq, Repr

/-- Oracle for the external world during one `handleApprove` invocation.
`priceResult` is the outcome of `getPositionPrices(env, [rec.ticker])`
projected to the ticker (`Except.error` = the fetch threw; `some p` = price
found).  `orderResult` is the outcome of whichever single order call the
handler makes. -/
structure ApprovalCtx where
  now : Int
  nowIso : String
  expiryHoursRaw : Option Int
  priceResult : Except String (Option Int)
  positionsResult : Except String (List AlpacaPos)
  orderResult : Except String OrderRes

/-- The distinct responses `handleApprove` can produce. -/
inductive ApprovalOutcome
  | notFound
  | alreadyResolved (status : String)
  | expired
  | holdNotExecutable
  | priceUnavailable
  | notionalTooSmall
  | noPosition
  | orderFailed (err : String)
  | tradeExecuted
deriving DecidableEq, Repr

/-- The HTTP status code attached to each outcome in the source. -/
def httpStatus : ApprovalOutcome → Nat
  | ApprovalOutcome.notFound => 400
  | ApprovalOutcome.alreadyResolved _ => 400
  | ApprovalOutcome.expired => 400
  | ApprovalOutcome.holdNotExecutable => 400
  | ApprovalOutcome.priceUnavailable => 500
  | ApprovalOutcome.notionalTooSmall => 400
  | ApprovalOutcome.noPosition => 400
  | ApprovalOutcome.orderFailed _ => 500
  | ApprovalOutcome.tradeExecuted => 200

/-- `Number(env.APPROVAL_EXPIRY_HOURS) || 23`: `none` models NaN (unset or
non-numeric), and `0` is falsy, so both fall back to 23. -/
def effectiveExpiryHours (raw : Option Int) : Int :=
  match raw with
  | some v => if v = 0 then 23 else v
  | none => 23

/-- Milliseconds in one hour (`MS_PER_HOUR`). -/
def MS_PER_HOUR : Int := 3600000

/-- Steps 6–7 of `handleApprove` after a successful order submission:
`logTrade` (failure non-fatal), then the transition to APPROVED (failure
non-fatal). -/
def approveFinish (ctx : ApprovalCtx) (db : List RecRow) (id : String) (kind : OrderKind) :
    ApprovalOutcome × List RecRow × List Ev :=
  match updateRecommendationStatus db id "APPROVED" ctx.nowIso with
  | Except.ok d =>
    (ApprovalOutcome.tradeExecuted, d,
      [Ev.orderSubmit kind, Ev.logTradeEv, Ev.dbUpdate "APPROVED"])
  | Except.error _ =>
    (ApprovalOutcome.tradeExecuted, db,
      [Ev.orderSubmit kind, Ev.logTradeEv, Ev.dbUpdate "APPROVED"])

/-- Bracket-level validation: a bracket buy is submitted only when both
levels are present and `stopPrice < currentPrice < takeProfitPrice`;
otherwise a plain whole-share market buy is placed. -/
def chooseBuyKind (rec : RecRow) (currentPrice : Int) : OrderKind :=
  match rec.stopPrice, rec.takeProfitPrice with
  | some sp, some tp =>
    if sp < currentPrice ∧ tp > currentPrice then OrderKind.buyBracket
    else OrderKind.buyQty
  | _, _ => OrderKind.buyQty

/-- Step 5 of `handleApprove`: submit the order to Alpaca.  For BUY: fetch
the price (absent or zero price → error response), convert notional to a
whole-share quantity `⌊notional / price⌋`, choose bracket vs plain buy by
validating the bracket levels against the live price.  For SELL (any
non-BUY action after the HOLD check): resolve the held quantity from the
live portfolio.  Any throw inside this step is caught and surfaced as a 500
without touching the store. -/
def handleApproveOrder (ctx : ApprovalCtx) (db : List RecRow) (id : String) (rec : RecRow) :
    ApprovalOutcome × List RecRow × List Ev :=
  if rec.action = "HOLD" then (ApprovalOutcome.holdNotExecutable, db, [])
  else if rec.action = "BUY" then
    match ctx.priceResult with
    | Except.error e => (ApprovalOutcome.orderFailed e, db, [])
    | Except.ok none => (ApprovalOutcome.priceUnavailable, db, [])
    | Except.ok (some currentPrice) =>
      if currentPrice = 0 then (ApprovalOutcome.priceUnavailable, db, [])
      else if rec.notional.fdiv currentPrice < 1 then
        (ApprovalOutcome.notionalTooSmall, db, [])
      else
        match ctx.orderResult with
        | Except.error e =>
          (ApprovalOutcome.orderFailed e, db, [Ev.orderSubmit (chooseBuyKind rec currentPrice)])
        | Except.ok _ => approveFinish ctx db id (chooseBuyKind rec currentPrice)
  else
    match ctx.positionsResult with
    | Except.error e => (ApprovalOutcome.orderFailed e, db, [])
    | Except.ok positions =>
      match positions.find? (fun p => decide (p.symbol = rec.ticker)) with
      | none => (ApprovalOutcome.noPosition, db, [])
      | some _ =>
        match ctx.orderResult with
        | Except.error e => (ApprovalOutcome.orderFailed e, db, [Ev.orderSubmit OrderKind.sell])
        | Except.ok _ => approveFinish ctx db id OrderKind.sell

/-- `handleApprove`: `validatePending` with `checkExpiry = true` (lookup,
PENDING check, stale-approval check that writes EXPIRED and rejects), then
the order-submission step. -/
def handleApprove (ctx : ApprovalCtx) (db : List RecRow) (id : String) :
    ApprovalOutcome × List RecRow × List Ev :=
  match getRecommendation db id with
  | none => (ApprovalOutcome.notFound, db, [])
  | some rec =>
    if rec.status ≠ "PENDING" then (ApprovalOutcome.alreadyResolved rec.status, db, [])
    else
      match rec.createdAt with
      | some created =>
        if ctx.now - created ≥ effectiveExpiryHours ctx.expiryHoursRaw * MS_PER_HOUR then
          match updateRecommendationStatus db id "EXPIRED" ctx.nowIso with
          | Except.ok d => (ApprovalOutcome.expired, d, [Ev.dbUpdate "EXPIRED"])
          | Except.error _ => (ApprovalOutcome.expired, db, [Ev.dbUpdate "EXPIRED"])
        else handleApproveOrder ctx db id rec
      | none => handleApproveOrder ctx db id rec

/-- Scans the trace for an order submission that is not preceded by a
recorded PENDING→APPROVED write: `true` means every order call happened only
after the APPROVED transition was recorded. -/
def noOrderBeforeApprovedWrite : List Ev → Bool
  | [] => true
  | Ev.dbUpdate s :: rest =>
    if s = "APPROVED" then true else noOrderBeforeApprovedWrite rest
  | Ev.orderSubmit _ :: _ => false
  | Ev.logTradeEv :: rest => noOrderBeforeApprovedWrite rest

/-- `true` iff every recorded APPROVED write in the trace is preceded by an
order submission (`seen` tracks whether an order call has occurred). -/
def approvedWriteAfterOrder (seen : Bool) : List Ev → Bool
  | [] => true
  | Ev.orderSubmit _ :: rest => approvedWriteAfterOrder true rest
  | Ev.dbUpdate s :: rest =>
    if s = "APPROVED" ∧ seen = false then false
    else approvedWriteAfterOrder seen rest
  | Ev.logTradeEv :: rest => approvedWriteAfterOrder seen rest

/-! ## Decision orchestrator guard loop (`DecisionAgent.decide`, step 4)

The per-decision guard rules and the run-scoped remaining-buying-power
counter, modelled as a recursion over the validated decision list.  Each
accepted decision becomes a recommendation-creation request; persistence and
notification failures in the source are per-item and do not affect the
counter (the counter is decremented before `insertRecommendation` is
called), so they are not modelled. -/

/-- A decision action as constrained by the Zod schema. -/
inductive DAction
  | BUY
  | SELL
  | HOLD
deriving DecidableEq, Repr

/-- One validated LLM decision (post-Zod: action in the enum, optional
`notional` and `qty` positive when present, stop / take-profit normalized to
`none` when absent, null, zero or negative). -/
structure LlmDecision where
  action : DAction
  ticker : String
  reasoning : String
  notional : Option Int
  qty : Option Int
  stopPrice : Option Int
  takeProfitPrice : Option Int
deriving DecidableEq, Repr

/-- `Number(env.POSITION_SIZE_USD) || 10_000`. -/
def defaultPositionSize (raw : Option Int) : Int :=
  match raw with
  | some v => if v = 0 then 10000 else v
  | none => 10000

/-- The `prices` record from `getPositionPrices`, as an association list. -/
def lookupPrice (prices : List (String × Int)) (t : String) : Option Int :=
  (prices.find? (fun p => decide (p.1 = t))).map (fun p => p.2)

/-- Notional resolution: a BUY uses the decision's notional or the
configured default; a SELL uses the position's live market value, falling
back to `qty × last price` when the position is missing. -/
def resolveNotional (positionSize : Option Int) (positions : List AlpacaPos)
    (prices : List (String × Int)) (d : LlmDecision) : Int :=
  match d.action with
  | DAction.BUY => d.notional.getD (defaultPositionSize positionSize)
  | _ =>
    match positions.find? (fun p => decide (p.symbol = d.ticker)) with
    | some p => p.marketValue
    | none => (d.qty.getD 0) * ((lookupPrice prices d.ticker).getD 0)

/-- A recommendation-creation request emitted for an accepted decision. -/
structure RecRequest where
  ticker : String
  action : DAction
  notional : Int
deriving DecidableEq, Repr

/-- Is the ticker already held (`portfolioTickers.has`)? -/
def tickerHeld (positions : List AlpacaPos) (t : String) : Bool :=
  positions.any (fun p => p.symbol = t)

/-- The step-4 loop of `DecisionAgent.decide`: HOLDs are dropped; a BUY for
a held ticker and a SELL for an unheld ticker are skipped; a BUY whose
resolved notional exceeds the remaining buying power is skipped without
touching the counter; an accepted BUY decrements the counter before the
next decision is evaluated. -/
def processDecisions (positions : List AlpacaPos) (prices : List (String × Int))
    (positionSize : Option Int) : List LlmDecision → Int → List RecRequest
  | [], _ => []
  | d :: rest, remaining =>
    if d.action = DAction.HOLD then
      processDecisions positions prices positionSize rest remaining
    else if d.action = DAction.BUY ∧ tickerHeld positions d.ticker then
      processDecisions positions prices positionSize rest remaining
    else if d.action = DAction.SELL ∧ ¬tickerHeld positions d.ticker then
      processDecisions positions prices positionSize rest remaining
    else
      let notional := resolveNotional positionSize positions prices d
      if d.action = DAction.BUY then
        if remaining < notional then
          processDecisions positions prices positionSize rest remaining
        else
          { ticker := d.ticker, action := d.action, notional := notional } ::
            processDecisions positions prices positionSize rest (remaining - notional)
      else
        { ticker := d.ticker, action := d.action, notional := notional } ::
          processDecisions positions prices positionSize rest remaining

/-- Total notional of the accepted BUY requests of a run. -/
def sumBuyNotionals (rs : List RecRequest) : Int :=
  rs.foldr (fun r acc => if r.action = DAction.BUY then r.notional + acc else acc) 0

/-! ## Concrete instances

Concrete filings, rows and oracles used by witness and counterexample
theorems.  The filing batch mirrors the repository's scoring test fixture
(`scripts/test-scoring.ts`); day numbers are relative, with `today =
20000`. -/

/-- CEO open-market purchase above $1M, dated today. -/
def ceoFiling : Filing :=
  { ticker := "MEGA", insiderName := "Jane Doe",
    insiderRole := "Chief Executive Officer (CEO)", transactionDate := 20000,
    transactionType := "P", transactionValue := 1500000,
    sharesTraded := 10000, pricePerShare := 150 }

/-- Director purchase on CLUSTER, dated yesterday. -/
def dirFilingA : Filing :=
  { ticker := "CLUSTER", insiderName := "Alice Smith", insiderRole := "Director",
    transactionDate := 19999, transactionType := "P", transactionValue := 200000,
    sharesTraded := 2000, pricePerShare := 100 }

/-- A second, different director purchase on CLUSTER, dated today. -/
def dirFilingB : Filing :=
  { ticker := "CLUSTER", insiderName := "Bob Jones", insiderRole := "Director",
    transactionDate := 20000, transactionType := "P", transactionValue := 75000,
    sharesTraded := 750, pricePerShare := 100 }

/-- An option award (`transactionType = "A"`), discarded by the purchase
gate. -/
def awardFiling : Filing :=
  { ticker := "OPTS", insiderName := "Dave Black", insiderRole := "CEO",
    transactionDate := 20000, transactionType := "A", transactionValue := 2000000,
    sharesTraded := 50000, pricePerShare := 40 }

/-- The demo batch fed to `scoreSignals` in witnesses. -/
def demoBatch : List Filing := [ceoFiling, dirFilingA, dirFilingB, awardFiling]

/-- A PENDING BUY recommendation row created at epoch time 0. -/
def pendingRow : RecRow :=
  { id := "r1", ticker := "ACME", action := "BUY", reasoning := "insider signal",
    signalId := 1, status := "PENDING", notional := 10000, stopPrice := none,
    takeProfitPrice := none, createdAt := some 0, resolvedAt := none }

/-- The same recommendation after a successful approval. -/
def approvedRow : RecRow := { pendingRow with status := "APPROVED", resolvedAt := some "t1" }

/-- Oracle for a prompt, fully successful approval: one hour after creation,
price $50, order accepted. -/
def ctxOk : ApprovalCtx :=
  { now := 3600000, nowIso := "t2", expiryHoursRaw := none,
    priceResult := Except.ok (some 50), positionsResult := Except.ok [],
    orderResult := Except.ok { id := "o1", status := "accepted" } }

/-- Oracle for an approval arriving exactly 23 hours after creation (the
default expiry window). -/
def ctxLate : ApprovalCtx := { ctxOk with now := 82800000 }

/-- Oracle for an approval whose price snapshot has no entry for the
ticker. -/
def ctxNoPrice : ApprovalCtx := { ctxOk with priceResult := Except.ok none }

/-- The signal the demo batch produces for the CEO filing (not clustered). -/
def demoTopSignal : ScoredSignal := buildSignal 20000 ceoFiling false

/-- The signal the demo batch produces for the first director filing
(clustered with the second). -/
def demoClusterSignal : ScoredSignal := buildSignal 20000 dirFilingA true

/-- A BUY decision for $8,000 on AAA. -/
def demoBuyA : LlmDecision :=
  { action := DAction.BUY, ticker := "AAA", reasoning := "a", notional := some 8000,
    qty := none, stopPrice := none, takeProfitPrice := none }

/-- A BUY decision for $8,000 on BBB. -/
def demoBuyB : LlmDecision :=
  { action := DAction.BUY, ticker := "BBB", reasoning := "b", notional := some 8000,
    qty := none, stopPrice := none, takeProfitPrice := none }

/-- Two BUY decisions of $8,000 each (only one fits a $10,000 balance). -/
def demoDecisions : List LlmDecision := [demoBuyA, demoBuyB]

/-! ## Supporting lemmas -/

theorem calendarDayDiff_comm (a b : Int) : calendarDayDiff a b = calendarDayDiff b a := by
  unfold calendarDayDiff
  rw [← Int.natAbs_neg (a - b), neg_sub]

theorem clusterPair_iff {a b : Filing} :
    clusterPair a b = true ↔
      a.ticker = b.ticker ∧ a.insiderName ≠ b.insiderName ∧
        calendarDayDiff a.transactionDate b.transactionDate ≤ 5 := by
  simp [clusterPair, and_assoc]

theorem clusterPair_symm_true {a b : Filing} (h : clusterPair a b = true) :
    clusterPair b a = true := by
  rw [clusterPair_iff] at h ⊢
  exact ⟨h.1.symm, fun hn => h.2.1 hn.symm, by
    rw [calendarDayDiff_comm]; exact h.2.2⟩

theorem clusterPair_comm {a b : Filing} : clusterPair a b = clusterPair b a := by
  rcases ha : clusterPair a b with _ | _ <;> rcases hb : clusterPair b a with _ | _
  · rfl
  · exact absurd (clusterPair_symm_true hb) (by simp [ha])
  · exact absurd (clusterPair_symm_true ha) (by simp [hb])
  · rfl

theorem clusterPair_congr_left {a a2 b : Filing} (h : filingKey a = filingKey a2) :
    clusterPair a b = clusterPair a2 b := by
  unfold filingKey at h
  obtain ⟨ht, hn, hd⟩ : a.ticker = a2.ticker ∧ a.insiderName = a2.insiderName ∧
      a.transactionDate = a2.transactionDate := by
    simpa [Prod.ext_iff] using h
  unfold clusterPair
  rw [ht, hn, hd]

theorem pairKeys_cons_pos {a b : Filing} {rest : List Filing}
    (hp : clusterPair a b = true) :
    pairKeys a (b :: rest) = filingKey a :: filingKey b :: pairKeys a rest := by
  simp [pairKeys, hp]

theorem pairKeys_cons_neg {a b : Filing} {rest : List Filing}
    (hp : clusterPair a b = false) :
    pairKeys a (b :: rest) = pairKeys a rest := by
  simp [pairKeys, hp]

theorem mem_pairKeys {k : String × String × Int} {a : Filing} {rest : List Filing} :
    k ∈ pairKeys a rest ↔
      ∃ b ∈ rest, clusterPair a b = true ∧ (filingKey a = k ∨ filingKey b = k) := by
  induction rest with
  | nil => simp [pairKeys]
  | cons b rest ih =>
    rcases hp : clusterPair a b with _ | _
    · rw [pairKeys_cons_neg hp, ih]
      constructor
      · rintro ⟨c, hc, hpc, hk⟩
        exact ⟨c, List.mem_cons_of_mem _ hc, hpc, hk⟩
      · rintro ⟨c, hc, hpc, hk⟩
        rcases List.mem_cons.mp hc with rfl | hc2
        · exact absurd hpc (by simp [hp])
        · exact ⟨c, hc2, hpc, hk⟩
    · rw [pairKeys_cons_pos hp]
      constructor
      · intro hk
        rcases List.mem_cons.mp hk with rfl | hk2
        · exact ⟨b, List.mem_cons_self _ _, hp, Or.inl rfl⟩
        · rcases List.mem_cons.mp hk2 with rfl | hk3
          · exact ⟨b, List.mem_cons_self _ _, hp, Or.inr rfl⟩
          · obtain ⟨c, hc, hpc, hkc⟩ := ih.mp hk3
            exact ⟨c, List.mem_cons_of_mem _ hc, hpc, hkc⟩
      · rintro ⟨c, hc, hpc, hk⟩
        rcases List.mem_cons.mp hc with rfl | hc2
        · rcases hk with rfl | rfl
          · exact List.mem_cons_self _ _
          · exact List.mem_cons_of_mem _ (List.mem_cons_self _ _)
        · exact List.mem_cons_of_mem _ (List.mem_cons_of_mem _
            (ih.mpr ⟨c, hc2, hpc, hk⟩))

theorem mem_detectClusters {k : String × String × Int} {l : List Filing} :
    k ∈ detectClusters l ↔
      ∃ a ∈ l, ∃ b ∈ l, clusterPair a b = true ∧ (filingKey a = k ∨ filingKey b = k) := by
  induction l with
  | nil => simp [detectClusters]
  | cons c rest ih =>
    simp only [detectClusters, List.mem_append]
    constructor
    · rintro (hk | hk)
      · obtain ⟨b, hb, hpb, hkb⟩ := mem_pairKeys.mp hk
        exact ⟨c, List.mem_cons_self _ _, b, List.mem_cons_of_mem _ hb, hpb, hkb⟩
      · obtain ⟨a, ha, b, hb, hpb, hkb⟩ := ih.mp hk
        exact ⟨a, List.mem_cons_of_mem _ ha, b, List.mem_cons_of_mem _ hb, hpb, hkb⟩
    · rintro ⟨a, ha, b, hb, hp, hk⟩
      rcases List.mem_cons.mp ha with rfl | ha2
      · rcases List.mem_cons.mp hb with rfl | hb2
        · rw [clusterPair_iff] at hp
          exact absurd rfl hp.2.1
        · exact Or.inl (mem_pairKeys.mpr ⟨b, hb2, hp, hk⟩)
      · rcases List.mem_cons.mp hb with rfl | hb2
        · refine Or.inl (mem_pairKeys.mpr ⟨a, ha2, ?_, hk.symm⟩)
          rw [← clusterPair_comm]; exact hp
        · exact Or.inr (ih.mpr ⟨a, ha2, b, hb2, hp, hk⟩)

theorem filingKey_mem_detectClusters {f : Filing} {l : List Filing} (hf : f ∈ l) :
    filingKey f ∈ detectClusters l ↔ ∃ g ∈ l, clusterPair f g = true := by
  rw [mem_detectClusters]
  constructor
  · rintro ⟨a, ha, b, hb, hp, hk | hk⟩
    · refine ⟨b, hb, ?_⟩
      rw [clusterPair_congr_left hk] at hp
      exact hp
    · refine ⟨a, ha, ?_⟩
      rw [clusterPair_comm] at hp
      rw [clusterPair_congr_left hk] at hp
      exact hp
  · rintro ⟨g, hg, hp⟩
    exact ⟨f, hf, g, hg, hp, Or.inl rfl⟩

theorem mem_insertDesc {x s : ScoredSignal} {l : List ScoredSignal} :
    x ∈ insertDesc s l ↔ x = s ∨ x ∈ l := by
  induction l with
  | nil => simp [insertDesc]
  | cons t ts ih =>
    simp only [insertDesc]
    split
    · simp
    · simp only [List.mem_cons, ih]
      tauto

theorem length_insertDesc (s : ScoredSignal) (l : List ScoredSignal) :
    (insertDesc s l).length = l.length + 1 := by
  induction l with
  | nil => rfl
  | cons t ts ih =>
    simp only [insertDesc]
    split
    · rfl
    · simp [ih]

theorem mem_sortDesc {x : ScoredSignal} {l : List ScoredSignal} :
    x ∈ sortDesc l ↔ x ∈ l := by
  induction l with
  | nil => simp [sortDesc]
  | cons s rest ih => simp [sortDesc, mem_insertDesc, ih]

theorem length_sortDesc (l : List ScoredSignal) :
    (sortDesc l).length = l.length := by
  induction l with
  | nil => rfl
  | cons s rest ih => simp [sortDesc, length_insertDesc, ih]

theorem pairwise_insertDesc {s : ScoredSignal} {l : List ScoredSignal}
    (h : l.Pairwise (fun a b => b.score ≤ a.score)) :
    (insertDesc s l).Pairwise (fun a b => b.score ≤ a.score) := by
  induction l with
  | nil => simp [insertDesc]
  | cons t ts ih =>
    rcases List.pairwise_cons.mp h with ⟨ht, hts⟩
    simp only [insertDesc]
    split
    · rename_i hle
      refine List.pairwise_cons.mpr ⟨?_, h⟩
      intro b hb
      rcases List.mem_cons.mp hb with rfl | hb2
      · exact hle
      · exact Nat.le_trans (ht b hb2) hle
    · rename_i hgt
      refine List.pairwise_cons.mpr ⟨?_, ih hts⟩
      intro b hb
      rcases mem_insertDesc.mp hb with rfl | hb2
      · exact Nat.le_of_lt (Nat.lt_of_not_le hgt)
      · exact ht b hb2

theorem pairwise_sortDesc (l : List ScoredSignal) :
    (sortDesc l).Pairwise (fun a b => b.score ≤ a.score) := by
  induction l with
  | nil => exact List.Pairwise.nil
  | cons s rest ih => exact pairwise_insertDesc ih

theorem buildSignal_filing (today : Int) (f : Filing) (c : Bool) :
    (buildSignal today f c).filing = f := rfl

theorem buildSignal_clusterBonus (today : Int) (f : Filing) (c : Bool) :
    (buildSignal today f c).scoreBreakdown.clusterBonus = if c then 20 else 0 := rfl

theorem buildSignal_score_le (today : Int) (f : Filing) (c : Bool) :
    (buildSignal today f c).score ≤ 100 :=
  Nat.min_le_right _ _

theorem mem_scoreSignals {today : Int} {fs : List Filing} {lim : Nat} {s : ScoredSignal}
    (hs : s ∈ scoreSignals today fs lim) :
    ∃ f ∈ fs.filter (fun f => f.transactionType = "P"),
      s = buildSignal today f
        (decide (filingKey f ∈
          detectClusters (fs.filter (fun f => f.transactionType = "P")))) := by
  simp only [scoreSignals] at hs
  split at hs
  · simp at hs
  · have hs2 := mem_sortDesc.mp (List.mem_of_mem_take hs)
    obtain ⟨f, hf, hfe⟩ := List.mem_map.mp hs2
    exact ⟨f, hf, hfe.symm⟩

theorem sumBuyNotionals_cons (r : RecRequest) (rs : List RecRequest) :
    sumBuyNotionals (r :: rs) =
      if r.action = DAction.BUY then r.notional + sumBuyNotionals rs
      else sumBuyNotionals rs := rfl

theorem sumBuyNotionals_processDecisions_le (positions : List AlpacaPos)
    (prices : List (String × Int)) (positionSize : Option Int) (ds : List LlmDecision) :
    ∀ remaining : Int, 0 ≤ remaining →
      sumBuyNotionals (processDecisions positions prices positionSize ds remaining) ≤
        remaining := by
  induction ds with
  | nil => intro r h; simpa [processDecisions, sumBuyNotionals] using h
  | cons d rest ih =>
    intro r h
    simp only [processDecisions]
    split
    · exact ih r h
    · split
      · exact ih r h
      · split
        · exact ih r h
        · split
          · split
            · exact ih r h
            · rename_i hbuy hnotlt
              rw [sumBuyNotionals_cons]
              rw [if_pos hbuy]
              have hle : resolveNotional positionSize positions prices d ≤ r :=
                not_lt.mp hnotlt
              have hrec := ih (r - resolveNotional positionSize positions prices d)
                (by linarith)
              linarith
          · rename_i hnotbuy
            rw [sumBuyNotionals_cons]
            rw [if_neg hnotbuy]
            exact ih r h

theorem handleApproveOrder_db_cases (ctx : ApprovalCtx) (db : List RecRow) (id : String)
    (rec : RecRow) :
    (handleApproveOrder ctx db id rec).1 = ApprovalOutcome.tradeExecuted ∨
    (handleApproveOrder ctx db id rec).2.1 = db := by
  unfold handleApproveOrder approveFinish
  repeat' split
  all_goals first | (left; rfl) | (right; rfl)

theorem handleApprove_db_cases (ctx : ApprovalCtx) (db : List RecRow) (id : String) :
    (handleApprove ctx db id).1 = ApprovalOutcome.expired ∨
    (handleApprove ctx db id).1 = ApprovalOutcome.tradeExecuted ∨
    (handleApprove ctx db id).2.1 = db := by
  unfold handleApprove
  split
  · right; right; rfl
  · split
    · right; right; rfl
    · split
      · split
        · split
          · left; rfl
          · left; rfl
        · rcases handleApproveOrder_db_cases ctx db id _ with h | h
          · exact Or.inr (Or.inl h)
          · exact Or.inr (Or.inr h)
      · rcases handleApproveOrder_db_cases ctx db id _ with h | h
        · exact Or.inr (Or.inl h)
        · exact Or.inr (Or.inr h)

theorem approvedWriteAfterOrder_handleApproveOrder (ctx : ApprovalCtx) (db : List RecRow)
    (id : String) (rec : RecRow) :
    approvedWriteAfterOrder false (handleApproveOrder ctx db id rec).2.2 = true := by
  unfold handleApproveOrder approveFinish
  repeat' split
  all_goals rfl

/-! ## Claim theorems -/

/-- C1.  The claim states that the status-transition operation no-ops on a
non-PENDING recommendation because the update is conditioned on the status
still being PENDING.  The source `UPDATE` is conditioned only on the id, so
the expiry timer callback run against an already-APPROVED row overwrites
both `status` and `resolved_at`: this theorem evaluates
`expireRecommendation` at such a row and exhibits the overwrite. -/
theorem expiry_overwrites_resolved_status :
    approvedRow.status = "APPROVED" ∧
    expireRecommendation [approvedRow] "r1" "t2" =
      [{ approvedRow with status := "EXPIRED", resolvedAt := some "t2" }] := by
  decide

/-- C2 (counterexample).  At a concrete PENDING BUY recommendation with a
live price and a successful brokerage call, the approval handler's trace
contains the order submission before any recorded APPROVED write, refuting
the claim that the order is attempted only after the PENDING→APPROVED
transition is durably recorded. -/
theorem order_submitted_before_approved_write :
    noOrderBeforeApprovedWrite (handleApprove ctxOk [pendingRow] "r1").2.2 = false ∧
    (handleApprove ctxOk [pendingRow] "r1").2.2 =
      [Ev.orderSubmit OrderKind.buyQty, Ev.logTradeEv, Ev.dbUpdate "APPROVED"] := by
  decide

/-- C2 (amended).  In every run of the approval handler the order of
operations is the reverse of the claim: the brokerage order is submitted
first, and every recorded PENDING→APPROVED write is preceded by an order
submission in the same run. -/
theorem approved_write_recorded_after_order (ctx : ApprovalCtx) (db : List RecRow)
    (id : String) :
    approvedWriteAfterOrder false (handleApprove ctx db id).2.2 = true := by
  unfold handleApprove
  split
  · rfl
  · split
    · rfl
    · split
      · split
        · split
          · rfl
          · rfl
        · exact approvedWriteAfterOrder_handleApproveOrder ctx db id _
      · exact approvedWriteAfterOrder_handleApproveOrder ctx db id _

/-- C3.  An approval attempt on a still-PENDING recommendation whose age is
at least the configured expiry duration is rejected with a 400 error
response, and the attempt itself writes EXPIRED (never APPROVED) to every
row with the recommendation's id. -/
theorem stale_approval_rejected_and_expired (ctx : ApprovalCtx) (db : List RecRow)
    (id : String) (rec : RecRow) (created : Int) (r : RecRow)
    (h1 : getRecommendation db id = some rec)
    (h2 : rec.status = "PENDING")
    (h3 : rec.createdAt = some created)
    (h4 : ctx.now - created ≥ effectiveExpiryHours ctx.expiryHoursRaw * MS_PER_HOUR)
    (hr : r ∈ (handleApprove ctx db id).2.1) (hrid : r.id = id) :
    (handleApprove ctx db id).1 = ApprovalOutcome.expired ∧
    httpStatus (handleApprove ctx db id).1 = 400 ∧
    r.status = "EXPIRED" ∧ r.status ≠ "APPROVED" := by
  have h1f : db.find? (fun r2 => decide (r2.id = id)) = some rec := h1
  have hchanges : ¬(List.filter (fun r2 => decide (r2.id = id)) db).length = 0 := by
    have hmem0 : rec ∈ db := List.mem_of_find?_eq_some h1f
    have hpid := List.find?_some h1f
    have hmem : rec ∈ db.filter (fun r2 => decide (r2.id = id)) :=
      List.mem_filter.mpr ⟨hmem0, by simpa using hpid⟩
    intro h0
    rw [List.length_eq_zero] at h0
    rw [h0] at hmem
    exact absurd hmem (List.not_mem_nil rec)
  have hupd : updateRecommendationStatus db id "EXPIRED" ctx.nowIso =
      Except.ok (db.map (fun r2 =>
        if r2.id = id then { r2 with status := "EXPIRED", resolvedAt := some ctx.nowIso }
        else r2)) := by
    simp only [updateRecommendationStatus]
    rw [if_neg hchanges]
  have hrun : handleApprove ctx db id =
      (ApprovalOutcome.expired,
        db.map (fun r2 =>
          if r2.id = id then { r2 with status := "EXPIRED", resolvedAt := some ctx.nowIso }
          else r2),
        [Ev.dbUpdate "EXPIRED"]) := by
    simp only [handleApprove, h1, h3]
    rw [if_neg (by simp [h2])]
    rw [if_pos h4]
    rw [hupd]
  refine ⟨by rw [hrun], by rw [hrun]; rfl, ?_⟩
  rw [hrun] at hr
  obtain ⟨r0, hr0, hre⟩ := List.mem_map.mp hr
  by_cases hcase : r0.id = id
  · rw [if_pos hcase] at hre
    refine ⟨by rw [← hre], by rw [← hre]; simp⟩
  · rw [if_neg hcase] at hre
    rw [← hre] at hrid
    exact absurd hrid hcase

/-- C3 (witness).  The default 23-hour window on a recommendation created at
time 0 and approved at the 23-hour mark: the handler rejects with 400 and
the stored row becomes EXPIRED. -/
theorem stale_approval_rejected_and_expired_witness :
    (getRecommendation [pendingRow] "r1" = some pendingRow ∧
      pendingRow.status = "PENDING" ∧ pendingRow.createdAt = some 0 ∧
      { pendingRow with status := "EXPIRED", resolvedAt := some "t2" } ∈
        (handleApprove ctxLate [pendingRow] "r1").2.1) ∧
    (handleApprove ctxLate [pendingRow] "r1").1 = ApprovalOutcome.expired ∧
    httpStatus (handleApprove ctxLate [pendingRow] "r1").1 = 400 ∧
    RecRow.status { pendingRow with status := "EXPIRED", resolvedAt := some "t2" } =
      "EXPIRED" ∧
    RecRow.status { pendingRow with status := "EXPIRED", resolvedAt := some "t2" } ≠
      "APPROVED" :=
  ⟨⟨by decide, by decide, by decide, by decide⟩,
    stale_approval_rejected_and_expired ctxLate [pendingRow] "r1" pendingRow 0
      { pendingRow with status := "EXPIRED", resolvedAt := some "t2" }
      (by decide) (by decide) (by decide) (by decide) (by decide) (by decide)⟩

/-- C4.  The claim states a role string containing "Vice President" and no
standalone executive title scores 15.  The executive regex alternative
`PRESIDENT` is bracketed by word boundaries, and the word "President"
inside "Vice President" sits at word boundaries, so the executive pattern
matches first and the code returns 40. -/
theorem scoreRole_vice_president_returns_40 :
    scoreRole "Vice President of Operations" = 40 ∧
    scoreRole "Vice President of Operations" ≠ 15 := by
  decide

/-- C5.  A signal in the scoring output carries the +20 cluster bonus
exactly when some other purchase in the batch is on the same ticker by a
different insider within 5 calendar days, and the bonus is flat: it is
always exactly 0 or 20, never accumulated over multiple qualifying
pairs. -/
theorem cluster_bonus_iff_partner (today : Int) (fs : List Filing) (lim : Nat)
    (s : ScoredSignal) (hs : s ∈ scoreSignals today fs lim) :
    (s.scoreBreakdown.clusterBonus = 20 ↔
      ∃ g ∈ fs, g.transactionType = "P" ∧ g.ticker = s.filing.ticker ∧
        g.insiderName ≠ s.filing.insiderName ∧
        calendarDayDiff s.filing.transactionDate g.transactionDate ≤ 5) ∧
    (s.scoreBreakdown.clusterBonus = 0 ∨ s.scoreBreakdown.clusterBonus = 20) := by
  obtain ⟨f, hfp, rfl⟩ := mem_scoreSignals hs
  have hiff : filingKey f ∈ detectClusters (fs.filter (fun f => f.transactionType = "P")) ↔
      ∃ g ∈ fs, g.transactionType = "P" ∧ g.ticker = f.ticker ∧
        g.insiderName ≠ f.insiderName ∧
        calendarDayDiff f.transactionDate g.transactionDate ≤ 5 := by
    rw [filingKey_mem_detectClusters hfp]
    constructor
    · rintro ⟨g, hg, hpg⟩
      have hgf := List.mem_filter.mp hg
      rw [clusterPair_iff] at hpg
      exact ⟨g, hgf.1, by simpa using hgf.2, hpg.1.symm, fun hn => hpg.2.1 hn.symm, hpg.2.2⟩
    · rintro ⟨g, hgF, hgP, ht, hn, hd⟩
      refine ⟨g, List.mem_filter.mpr ⟨hgF, by simp [hgP]⟩, ?_⟩
      rw [clusterPair_iff]
      exact ⟨ht.symm, fun h => hn h.symm, hd⟩
  constructor
  · simp only [buildSignal_clusterBonus, buildSignal_filing]
    rcases hc : decide (filingKey f ∈
        detectClusters (fs.filter (fun f => f.transactionType = "P"))) with _ | _
    · exact iff_of_false (by simp) (fun hx => of_decide_eq_false hc (hiff.mpr hx))
    · exact iff_of_true (by simp) (hiff.mp (of_decide_eq_true hc))
  · simp only [buildSignal_clusterBonus]
    rcases decide (filingKey f ∈
        detectClusters (fs.filter (fun f => f.transactionType = "P"))) with _ | _
    · simp
    · simp

/-- C5 (witness).  In the demo batch the first director's CLUSTER purchase
is clustered with the second director's, so its signal carries exactly
+20. -/
theorem cluster_bonus_iff_partner_witness :
    demoClusterSignal ∈ scoreSignals 20000 demoBatch 10 ∧
    ((demoClusterSignal.scoreBreakdown.clusterBonus = 20 ↔
      ∃ g ∈ demoBatch, g.transactionType = "P" ∧
        g.ticker = demoClusterSignal.filing.ticker ∧
        g.insiderName ≠ demoClusterSignal.filing.insiderName ∧
        calendarDayDiff demoClusterSignal.filing.transactionDate g.transactionDate ≤ 5) ∧
    (demoClusterSignal.scoreBreakdown.clusterBonus = 0 ∨
      demoClusterSignal.scoreBreakdown.clusterBonus = 20)) :=
  ⟨by decide, cluster_bonus_iff_partner 20000 demoBatch 10 demoClusterSignal (by decide)⟩

/-- C6.  The scoring output is sorted non-increasing by score and every
returned score lies in [0, 100] (scores are sums of non-negative factor
points capped at 100; the `Nat` codomain carries the lower bound). -/
theorem scores_sorted_and_bounded (today : Int) (fs : List Filing) (lim : Nat)
    (s : ScoredSignal) (hs : s ∈ scoreSignals today fs lim) :
    (scoreSignals today fs lim).Pairwise (fun a b => b.score ≤ a.score) ∧
    s.score ≤ 100 := by
  constructor
  · simp only [scoreSignals]
    split
    · exact List.Pairwise.nil
    · exact List.Pairwise.sublist (List.take_sublist _ _) (pairwise_sortDesc _)
  · obtain ⟨f, hf, rfl⟩ := mem_scoreSignals hs
    exact buildSignal_score_le today f _

/-- C6 (witness).  The demo batch instantiation: sorted output, all scores
at most 100. -/
theorem scores_sorted_and_bounded_witness :
    demoTopSignal ∈ scoreSignals 20000 demoBatch 10 ∧
    ((scoreSignals 20000 demoBatch 10).Pairwise (fun a b => b.score ≤ a.score) ∧
      demoTopSignal.score ≤ 100) :=
  ⟨by decide, scores_sorted_and_bounded 20000 demoBatch 10 demoTopSignal (by decide)⟩

/-- C7.  No minimum-score filter: when the batch holds at most `lim`
purchase records, every purchase record appears in the output regardless of
its score. -/
theorem no_min_score_filter (today : Int) (fs : List Filing) (lim : Nat) (f : Filing)
    (hcount : (fs.filter (fun f => f.transactionType = "P")).length ≤ lim)
    (hf : f ∈ fs) (hp : f.transactionType = "P") :
    ∃ s ∈ scoreSignals today fs lim, s.filing = f := by
  have hfp : f ∈ fs.filter (fun f => f.transactionType = "P") :=
    List.mem_filter.mpr ⟨hf, by simp [hp]⟩
  have hne : fs.filter (fun f => f.transactionType = "P") ≠ [] :=
    List.ne_nil_of_mem hfp
  refine ⟨buildSignal today f
    (decide (filingKey f ∈ detectClusters (fs.filter (fun f => f.transactionType = "P")))),
    ?_, buildSignal_filing today f _⟩
  simp only [scoreSignals]
  rw [if_neg (by simp only [List.isEmpty_iff]; exact hne)]
  rw [List.take_of_length_le (by rw [length_sortDesc, List.length_map]; exact hcount)]
  exact mem_sortDesc.mpr (List.mem_map_of_mem _ hfp)

/-- C7 (witness).  The lowest-scoring purchase of the demo batch still
appears in the output. -/
theorem no_min_score_filter_witness :
    ((demoBatch.filter (fun f => f.transactionType = "P")).length ≤ 10 ∧
      dirFilingB ∈ demoBatch ∧ dirFilingB.transactionType = "P") ∧
    ∃ s ∈ scoreSignals 20000 demoBatch 10, s.filing = dirFilingB :=
  ⟨⟨by decide, by decide, by decide⟩,
    no_min_score_filter 20000 demoBatch 10 dirFilingB (by decide) (by decide) (by decide)⟩

/-- C8.  The run-scoped remaining-buying-power counter: the notionals of
the accepted BUY requests of one run sum to at most the initial buying
power, and a BUY whose notional exceeds the current remaining balance is
skipped without decrementing the counter. -/
theorem accepted_buys_within_buying_power (positions : List AlpacaPos)
    (prices : List (String × Int)) (positionSize : Option Int)
    (decisions : List LlmDecision) (buyingPower : Int) (d : LlmDecision)
    (rest : List LlmDecision) (remaining : Int)
    (h : 0 ≤ buyingPower) (h1 : d.action = DAction.BUY)
    (h2 : tickerHeld positions d.ticker = false)
    (h3 : remaining < resolveNotional positionSize positions prices d) :
    sumBuyNotionals (processDecisions positions prices positionSize decisions buyingPower) ≤
      buyingPower ∧
    processDecisions positions prices positionSize (d :: rest) remaining =
      processDecisions positions prices positionSize rest remaining := by
  refine ⟨sumBuyNotionals_processDecisions_le positions prices positionSize
    decisions buyingPower h, ?_⟩
  simp only [processDecisions]
  rw [if_neg (by simp [h1])]
  rw [if_neg (by simp [h2])]
  rw [if_neg (by simp [h1])]
  rw [if_pos h1]
  rw [if_pos h3]

/-- C8 (witness).  With $10,000 of buying power and two $8,000 BUYs, the
accepted notionals stay within $10,000; a lone $8,000 BUY against a $5,000
remainder is a no-op skip. -/
theorem accepted_buys_within_buying_power_witness :
    ((0 : Int) ≤ 10000 ∧ demoBuyA.action = DAction.BUY ∧
      tickerHeld [] demoBuyA.ticker = false ∧
      (5000 : Int) < resolveNotional none [] [] demoBuyA) ∧
    (sumBuyNotionals (processDecisions [] [] none demoDecisions 10000) ≤ 10000 ∧
      processDecisions [] [] none (demoBuyA :: []) 5000 =
        processDecisions [] [] none [] 5000) :=
  ⟨⟨by decide, by decide, by decide, by decide⟩,
    accepted_buys_within_buying_power [] [] none demoDecisions 10000 demoBuyA [] 5000
      (by decide) (by decide) (by decide) (by decide)⟩

/-- C9.  The scoring engine is pure: equal inputs (including the ambient
UTC date, which the embedding passes explicitly) give equal outputs, and
every output signal is fully determined by its record and the purchase
batch it was scored within. -/
theorem scoreSignals_deterministic (t1 t2 : Int) (fs1 fs2 : List Filing)
    (l1 l2 : Nat) (s : ScoredSignal)
    (h1 : t1 = t2) (h2 : fs1 = fs2) (h3 : l1 = l2)
    (hs : s ∈ scoreSignals t1 fs1 l1) :
    scoreSignals t1 fs1 l1 = scoreSignals t2 fs2 l2 ∧
    s = buildSignal t1 s.filing
      (decide (filingKey s.filing ∈
        detectClusters (fs1.filter (fun f => f.transactionType = "P")))) := by
  subst h1; subst h2; subst h3
  refine ⟨rfl, ?_⟩
  obtain ⟨f, hf, rfl⟩ := mem_scoreSignals hs
  simp only [buildSignal_filing]

/-- C9 (witness).  The demo batch instantiation of determinism. -/
theorem scoreSignals_deterministic_witness :
    demoTopSignal ∈ scoreSignals 20000 demoBatch 10 ∧
    (scoreSignals 20000 demoBatch 10 = scoreSignals 20000 demoBatch 10 ∧
      demoTopSignal = buildSignal 20000 demoTopSignal.filing
        (decide (filingKey demoTopSignal.filing ∈
          detectClusters (demoBatch.filter (fun f => f.transactionType = "P"))))) :=
  ⟨by decide, scoreSignals_deterministic 20000 20000 demoBatch demoBatch 10 10
    demoTopSignal rfl rfl rfl (by decide)⟩

/-- C10.  When the approval handler fails between the PENDING validation
and the APPROVED write — price unavailable, whole-share quantity below 1,
or the order submission throwing — it returns an error response (HTTP ≥
400) and leaves the store untouched, so the recommendation stays
PENDING. -/
theorem approval_failure_leaves_pending (ctx : ApprovalCtx) (db : List RecRow)
    (id : String)
    (h : (handleApprove ctx db id).1 = ApprovalOutcome.priceUnavailable ∨
         (handleApprove ctx db id).1 = ApprovalOutcome.notionalTooSmall ∨
         ∃ e, (handleApprove ctx db id).1 = ApprovalOutcome.orderFailed e) :
    (handleApprove ctx db id).2.1 = db ∧
    400 ≤ httpStatus (handleApprove ctx db id).1 := by
  rcases handleApprove_db_cases ctx db id with he | he | he
  · rcases h with h | h | ⟨e, h⟩ <;> rw [he] at h <;> simp at h
  · rcases h with h | h | ⟨e, h⟩ <;> rw [he] at h <;> simp at h
  · refine ⟨he, ?_⟩
    rcases h with h | h | ⟨e, h⟩ <;> rw [h] <;> norm_num [httpStatus]

/-- C10 (witness).  A missing price snapshot at a PENDING BUY: 500 response
and an unchanged store. -/
theorem approval_failure_leaves_pending_witness :
    ((handleApprove ctxNoPrice [pendingRow] "r1").1 =
        ApprovalOutcome.priceUnavailable ∨
      (handleApprove ctxNoPrice [pendingRow] "r1").1 =
        ApprovalOutcome.notionalTooSmall ∨
      ∃ e, (handleApprove ctxNoPrice [pendingRow] "r1").1 =
        ApprovalOutcome.orderFailed e) ∧
    ((handleApprove ctxNoPrice [pendingRow] "r1").2.1 = [pendingRow] ∧
      400 ≤ httpStatus (handleApprove ctxNoPrice [pendingRow] "r1").1) :=
  ⟨Or.inl (by decide),
    approval_failure_leaves_pending ctxNoPrice [pendingRow] "r1" (Or.inl (by decide))⟩

end InsiderTrader
